import Mathlib

/-!
Verification of the streaming technique-run demultiplexer of the
sdl1-canvas-backend repository.

The repository contains three near-duplicate implementations of the same
batch-boundary / demultiplexing core, plus a per-sample persistence path:

* the module-level electrodeposition run loop in `OT2_control.py`
  (lines 810-913), modelled here by `depStep` / `depGo`;
* the function `run_and_save_characterization` in `OT2_control.py`
  (lines 1625-1718), modelled here by `charStep` / `charGo` / `charFinal`
  and the retry orchestration by `orchGo` / `charOrchestrate`;
* `BiologicDevice.run_techniques` in `src/core/devices/biologic_device.py`
  (lines 82-136), modelled here by `bdStep` / `bdGo`;
* `DataStorage.handle_data` / `DataStorage.save_data` in
  `src/utils/data_processing.py` (lines 97-112), modelled by `dsHandle`.

Python floats carrying instrument time stamps are modelled as rationals;
all time values occurring in the claims are small dyadic numbers for which
float arithmetic is exact.  A pandas dataframe accumulating one row per
sample is modelled as a `List Row`; a `to_csv` call is modelled as emitting
a `FileWrite` record carrying the numbering, technique-name and rows that
determine the written file.
-/

namespace SDL

/-- A row of measurement fields, the model of `data.to_json()` /
`data.process_data.to_json()`: an ordered mapping from field name to value. -/
abbrev Row := List (String × ℚ)

/-- One streamed measurement record, the model of the objects yielded by
`channel.run_techniques(...)`.  `json` is `data.to_json()`, `processJson` is
`data.process_data.to_json()`, `typeName` is the technique name derived from
`str(type(data.data))`, and `hasProcessData` models
`hasattr(data.data, 'process_data')`. -/
structure Sample where
  tech_index : Nat
  json : Row
  processJson : Row
  typeName : String
  hasProcessData : Bool
deriving DecidableEq, Repr

/-- Key membership in a json row, the model of `'k' in data.to_json()`. -/
def hasKey (r : Row) (k : String) : Bool := (r.lookup k).isSome

/-- Model of `'process_index' in data_temp.data.to_json()`. -/
def hasProcessIndex (s : Sample) : Bool := hasKey s.json "process_index"

/-- Model of the optional `time` field of `data.to_json()`. -/
def timeOf (s : Sample) : Option ℚ := s.json.lookup "time"

/-- The single dataframe row contributed by a sample: the process payload for
a process sample, the raw payload otherwise (`dfData_temp` in the source). -/
def rowOf (s : Sample) : Row := if hasProcessIndex s then s.processJson else s.json

/-- One `to_csv` call: the numbering and technique name embedded in the file
name, and the rows of the dataframe that is written. -/
structure FileWrite where
  num : Nat
  name : String
  rows : List Row
deriving DecidableEq, Repr

/-! ### Module-level electrodeposition run loop (`OT2_control.py` 810-913) -/

/-- The mutable variables of the module-level deposition run loop. -/
structure DepState where
  dfData : List Row
  intID_tech : Nat
  intID_tech_add : Nat
  strCurrentTechnique : String
  boolFirstTechnique : Bool
  fltTime_prev : ℚ
  fltTime_curr : ℚ
deriving DecidableEq, Repr

/-- Initial state of the deposition run loop (`OT2_control.py` 814-829). -/
def depInit : DepState :=
  { dfData := [], intID_tech := 0, intID_tech_add := 0,
    strCurrentTechnique := "", boolFirstTechnique := true,
    fltTime_prev := 0, fltTime_curr := 0 }

/-- The updated `(fltTime_prev, fltTime_curr)` pair: for a raw sample with a
`time` field the pair shifts, otherwise it is left unchanged
(`OT2_control.py` 867-870). -/
def timeShift (prev curr : ℚ) (s : Sample) : ℚ × ℚ :=
  if hasProcessIndex s then (prev, curr)
  else
    match timeOf s with
    | some t => (curr, t)
    | none => (prev, curr)

/-- One iteration of the deposition `for data_temp in runner` body
(`OT2_control.py` 848-900).  Returns the successor state and the list of
csv files written during the iteration. -/
def depStep (st : DepState) (s : Sample) : DepState × List FileWrite :=
  let name0 := if st.boolFirstTechnique then s.typeName else st.strCurrentTechnique
  let boolNew1 : Bool := s.tech_index != st.intID_tech
  let tp := timeShift st.fltTime_prev st.fltTime_curr s
  let boolAdd1 : Bool :=
    if hasProcessIndex s then false
    else decide (tp.1 - 2 > tp.2) && (s.tech_index == st.intID_tech)
  let boolNew := boolNew1 || boolAdd1
  if boolNew then
    ({ dfData := [rowOf s], intID_tech := s.tech_index,
       intID_tech_add := st.intID_tech_add + (if boolAdd1 then 1 else 0),
       strCurrentTechnique := s.typeName, boolFirstTechnique := false,
       fltTime_prev := tp.1, fltTime_curr := tp.2 },
     [⟨st.intID_tech + st.intID_tech_add, name0, st.dfData⟩])
  else
    ({ st with
        dfData := st.dfData ++ [rowOf s],
        strCurrentTechnique := name0, boolFirstTechnique := false,
        fltTime_prev := tp.1, fltTime_curr := tp.2 }, [])

/-- The deposition loop over a whole sample stream, including the
unconditional final `dfData.to_csv` after the stream ends
(`OT2_control.py` 904-907). -/
def depGo (st : DepState) : List Sample → DepState × List FileWrite
  | [] => (st, [⟨st.intID_tech + st.intID_tech_add, st.strCurrentTechnique, st.dfData⟩])
  | s :: rest =>
    let p := depStep st s
    let q := depGo p.1 rest
    (q.1, p.2 ++ q.2)

/-- All csv files written by the deposition run loop for a given stream. -/
def depPipeline (stream : List Sample) : List FileWrite :=
  (depGo depInit stream).2

/-! ### `run_and_save_characterization` (`OT2_control.py` 1625-1718) -/

/-- The mutable variables of `run_and_save_characterization` that persist
across loop iterations (and across connection retries). -/
structure CharState where
  dfData : List Row
  intID_tech : Option Nat
  intGlobalTechID : Nat
  strCurrentTechnique : String
  boolFirstTechnique : Bool
  fltTime_prev : ℚ
  fltTime_curr : ℚ
deriving DecidableEq, Repr

/-- Initial state of `run_and_save_characterization`
(`OT2_control.py` 1641-1649); `intGlobalTechID` is the caller-supplied
starting number. -/
def charInit (gid : Nat) : CharState :=
  { dfData := [], intID_tech := none, intGlobalTechID := gid,
    strCurrentTechnique := "", boolFirstTechnique := true,
    fltTime_prev := 0, fltTime_curr := 0 }

/-- The restart-detection flag `boolAdd1ToTechIndex` of one iteration
(`OT2_control.py` 1669-1680): for a raw sample, the check
`fltTime_prev - 2 > fltTime_curr and tech_index == intID_tech` is evaluated
on the (possibly unchanged) time pair; a process sample skips the check. -/
def charAdd1Flag (st : CharState) (s : Sample) : Bool :=
  if hasProcessIndex s then false
  else
    let tp := timeShift st.fltTime_prev st.fltTime_curr s
    decide (tp.1 - 2 > tp.2) && (some s.tech_index == st.intID_tech)

/-- The run-id part of `boolNewTechnique`:
`intID_tech is None or data_temp.tech_index != intID_tech`
(`OT2_control.py` 1665). -/
def charNewFlag1 (st : CharState) (s : Sample) : Bool :=
  match st.intID_tech with
  | none => true
  | some k => s.tech_index != k

/-- The `boolNewTechnique` verdict for one sample: `true` means NEW_BATCH
(the open batch is flushed and a fresh one starts), `false` means
SAME_BATCH. -/
def charNewFlag (st : CharState) (s : Sample) : Bool :=
  charNewFlag1 st s || charAdd1Flag st s

/-- One iteration of the `for data_temp in runner` body of
`run_and_save_characterization` (`OT2_control.py` 1659-1699).  A flush only
writes a file (and consumes a number) when the accumulated dataframe is
non-empty; `boolAdd1ToTechIndex` is reset without further effect. -/
def charStep (st : CharState) (s : Sample) : CharState × List FileWrite :=
  let name0 := if st.boolFirstTechnique then s.typeName else st.strCurrentTechnique
  let tp := timeShift st.fltTime_prev st.fltTime_curr s
  if charNewFlag st s then
    let ws : List FileWrite :=
      if st.dfData = [] then [] else [⟨st.intGlobalTechID, name0, st.dfData⟩]
    let gid := if st.dfData = [] then st.intGlobalTechID else st.intGlobalTechID + 1
    ({ dfData := [rowOf s], intID_tech := some s.tech_index,
       intGlobalTechID := gid, strCurrentTechnique := s.typeName,
       boolFirstTechnique := false, fltTime_prev := tp.1, fltTime_curr := tp.2 }, ws)
  else
    ({ st with
        dfData := st.dfData ++ [rowOf s],
        strCurrentTechnique := name0, boolFirstTechnique := false,
        fltTime_prev := tp.1, fltTime_curr := tp.2 }, [])

/-- The streaming loop of `run_and_save_characterization`, without the final
flush (the final flush only runs when the stream ends without an
exception). -/
def charGo (st : CharState) : List Sample → CharState × List FileWrite
  | [] => (st, [])
  | s :: rest =>
    let p := charStep st s
    let q := charGo p.1 rest
    (q.1, p.2 ++ q.2)

/-- The guarded end-of-stream flush of `run_and_save_characterization`
(`OT2_control.py` 1701-1707): only a non-empty dataframe is written, and
only then is `intGlobalTechID` incremented. -/
def charFinal (st : CharState) : CharState × List FileWrite :=
  if st.dfData = [] then (st, [])
  else
    ({ st with intGlobalTechID := st.intGlobalTechID + 1 },
     [⟨st.intGlobalTechID, st.strCurrentTechnique, st.dfData⟩])

/-- All csv files written by a single successful (exception-free) run of
the `run_and_save_characterization` streaming loop. -/
def charPipeline (gid : Nat) (stream : List Sample) : List FileWrite :=
  let p := charGo (charInit gid) stream
  p.2 ++ (charFinal p.1).2

/-! ### `BiologicDevice.run_techniques`
(`src/core/devices/biologic_device.py` 82-136) -/

/-- The local variables of `BiologicDevice.run_techniques`; `tech_id_add` is
initialised to 0 and never assigned again anywhere in the method. -/
structure BdState where
  df_data : List Row
  tech_id : Nat
  tech_id_add : Nat
  current_technique : String
  first_technique : Bool
deriving DecidableEq, Repr

/-- Initial state of `BiologicDevice.run_techniques` (lines 84-88). -/
def bdInit : BdState :=
  { df_data := [], tech_id := 0, tech_id_add := 0,
    current_technique := "", first_technique := true }

/-- One iteration of the `for data in runner` body of
`BiologicDevice.run_techniques` (lines 93-125): a flush happens exactly when
the incoming `tech_index` differs from the tracked `tech_id` and the
accumulated dataframe is non-empty; no time field is ever inspected. -/
def bdStep (st : BdState) (s : Sample) : BdState × List FileWrite :=
  let name0 := if st.first_technique then s.typeName else st.current_technique
  if s.tech_index != st.tech_id then
    let ws : List FileWrite :=
      if st.df_data = [] then [] else [⟨st.tech_id + st.tech_id_add, name0, st.df_data⟩]
    ({ df_data := [rowOf s], tech_id := s.tech_index, tech_id_add := st.tech_id_add,
       current_technique := s.typeName, first_technique := false }, ws)
  else
    ({ st with
        df_data := st.df_data ++ [rowOf s],
        current_technique := name0, first_technique := false }, [])

/-- The loop of `BiologicDevice.run_techniques` over a whole stream,
including the guarded final save (lines 127-134). -/
def bdGo (st : BdState) : List Sample → BdState × List FileWrite
  | [] =>
    (st, if st.df_data = [] then []
         else [⟨st.tech_id + st.tech_id_add, st.current_technique, st.df_data⟩])
  | s :: rest =>
    let p := bdStep st s
    let q := bdGo p.1 rest
    (q.1, p.2 ++ q.2)

/-- All files saved by `BiologicDevice.run_techniques` for a given stream. -/
def bdPipeline (stream : List Sample) : List FileWrite :=
  (bdGo bdInit stream).2

/-- Modelled from the claim: `run_techniques` "flushes the accumulated table
exactly when an incoming sample's tech_index differs from the tracked
tech_id (plus one final flush at end of stream)".  This reference function
partitions the stream into the batches that behaviour yields: it tracks a
`tech_id` (initially 0), accumulates samples while the id matches, and cuts
a batch whenever the id differs (emitting the accumulated batch if
non-empty), with one final guarded emission at end of stream.  It never
inspects time fields. -/
def bdRunsSpec (tid : Nat) (acc : List Sample) : List Sample → List (List Sample)
  | [] => if acc = [] then [] else [acc]
  | s :: rest =>
    if s.tech_index ≠ tid then
      if acc = [] then bdRunsSpec s.tech_index [s] rest
      else acc :: bdRunsSpec s.tech_index [s] rest
    else bdRunsSpec tid (acc ++ [s]) rest

/-! ### `DataStorage` websocket persistence path
(`src/utils/data_processing.py` 69-112) -/

/-- The dataframe row built by `DataProcessor.handle_data`: the process
payload when `data.data` has a `process_data` attribute, the raw payload
otherwise (lines 69-85). -/
def dsRow (s : Sample) : Row := if s.hasProcessData then s.processJson else s.json

/-- The file path `DataStorage.save_data` writes to, determined only by the
experiment id, the sample's `tech_index` and the derived technique name
(lines 107-111). -/
def dsPath (expId : String) (s : Sample) : String × Nat × String :=
  (expId, s.tech_index, s.typeName)

/-- A file system fragment: an association of paths to the table last
written at that path. -/
abbrev Store := List ((String × Nat × String) × List Row)

/-- Writing a table at a path overwrites any previous file at that path. -/
def storePut : Store → (String × Nat × String) → List Row → Store
  | [], p, v => [(p, v)]
  | (q, w) :: rest, p, v =>
    if q = p then (p, v) :: rest else (q, w) :: storePut rest p v

/-- The table currently stored at a path, if any. -/
def storeGet : Store → (String × Nat × String) → Option (List Row)
  | [], _ => none
  | (q, w) :: rest, p => if q = p then some w else storeGet rest p

/-- One `DataStorage.handle_data` call (lines 97-111): the sample is
processed into a single-row table and immediately written at its path,
overwriting any previous file there. -/
def dsHandle (expId : String) (m : Store) (s : Sample) : Store :=
  storePut m (dsPath expId s) [dsRow s]

/-- Folding `DataStorage.handle_data` over a stream from a given store,
also accumulating the chronological log of (path, table) writes
performed. -/
def dsGo (expId : String) (m : Store) (log : List ((String × Nat × String) × List Row)) :
    List Sample → Store × List ((String × Nat × String) × List Row)
  | [] => (m, log)
  | s :: rest =>
    dsGo expId (dsHandle expId m s) (log ++ [(dsPath expId s, [dsRow s])]) rest

/-- Folding `DataStorage.handle_data` over a stream on an empty store. -/
def dsRun (expId : String) (stream : List Sample) : Store × List ((String × Nat × String) × List Row) :=
  dsGo expId [] [] stream

/-! ### Retry orchestration of `run_and_save_characterization`
(`OT2_control.py` 1638-1718) -/

/-- The outcome of one iteration of the connect-and-stream `while` loop:
either the `connect(usb_port)` call raises (`fail`), or the connection
succeeds and the runner yields the given samples, after which either an
exception interrupts the stream (`crashed = true`) or the stream completes
normally. -/
inductive ConnectOutcome where
  | fail : ConnectOutcome
  | stream : List Sample → Bool → ConnectOutcome
deriving DecidableEq, Repr

/-- Observable result of a `run_and_save_characterization` call:
how many `connect` attempts were made, the backoff sleeps performed (one
50-second sleep after each caught exception), the csv files written, and
the value returned to the caller.  `ret = some gid` models the normal
`return intGlobalTechID`; `none` would model an exception propagating out
of the function, which the source (whose `except` clause catches every
exception and never re-raises) can never produce. -/
structure OrchResult where
  connects : Nat
  sleeps : List Nat
  writes : List FileWrite
  ret : Option Nat
deriving DecidableEq, Repr

/-- The `while boolTryToConnect and intAttempts_temp < intMaxAttempts` loop
(`OT2_control.py` 1651-1715).  All accumulator and detector state lives in
`st` and is *not* reinitialised between attempts; only a success path runs
the final flush and clears `boolTryToConnect`. -/
def orchGo (maxA : Nat) : List ConnectOutcome → CharState → List FileWrite →
    Nat → List Nat → Nat → OrchResult
  | [], st, ws, connects, sleeps, _ => ⟨connects, sleeps, ws, some st.intGlobalTechID⟩
  | ConnectOutcome.fail :: rest, st, ws, connects, sleeps, attempts =>
    if attempts < maxA then
      orchGo maxA rest st ws (connects + 1) (sleeps ++ [50]) (attempts + 1)
    else ⟨connects, sleeps, ws, some st.intGlobalTechID⟩
  | ConnectOutcome.stream samples crashed :: rest, st, ws, connects, sleeps, attempts =>
    if attempts < maxA then
      let p := charGo st samples
      if crashed then
        orchGo maxA rest p.1 (ws ++ p.2) (connects + 1) (sleeps ++ [50]) (attempts + 1)
      else
        let q := charFinal p.1
        ⟨connects + 1, sleeps, ws ++ p.2 ++ q.2, some q.1.intGlobalTechID⟩
    else ⟨connects, sleeps, ws, some st.intGlobalTechID⟩

/-- A whole `run_and_save_characterization` call with the given maximum
number of attempts, starting global number and sequence of per-attempt
outcomes. -/
def charOrchestrate (maxA gid : Nat) (outs : List ConnectOutcome) : OrchResult :=
  orchGo maxA outs (charInit gid) [] 0 [] 0

/-- Result of `BiologicDevice.connect` (lines 35-53): `ok` models
`return True`, `connectionError` models the `ConnectionError` raised after
the maximum number of attempts. -/
inductive ConnectResult where
  | ok : ConnectResult
  | connectionError : String → ConnectResult
deriving DecidableEq, Repr

/-- `BiologicDevice.connect` (lines 35-53): up to `maxA` attempts, each
modelled by a boolean (did the vendor `connect` call succeed); after
exhausting the attempts a `ConnectionError` is raised to the caller. -/
def bioConnect : Nat → List Bool → ConnectResult
  | 0, _ => ConnectResult.connectionError "Failed to connect to Biologic after maximum attempts"
  | _ + 1, [] => ConnectResult.connectionError "Failed to connect to Biologic after maximum attempts"
  | n + 1, r :: rest => if r then ConnectResult.ok else bioConnect n rest


/-! ### Concrete streams used by the claims -/

/-- A raw (non-process) sample with a `time` field. -/
def rawS (idx : Nat) (t : ℚ) (nm : String) : Sample :=
  { tech_index := idx, json := [("time", t), ("Ewe", 1)], processJson := [],
    typeName := nm, hasProcessData := false }

/-- A raw (non-process) sample without a `time` field (for example an
impedance point). -/
def rawNoTimeS (idx : Nat) (nm : String) : Sample :=
  { tech_index := idx, json := [("freq", 10), ("Ewe", 1)], processJson := [],
    typeName := nm, hasProcessData := false }

/-- P3's stream: run ids `[0,0,0,1,1,2]`, strictly increasing times. -/
def streamP3 : List Sample :=
  [rawS 0 0 "OCV", rawS 0 1 "OCV", rawS 0 2 "OCV",
   rawS 1 3 "CP", rawS 1 4 "CP", rawS 2 5 "CV"]

/-- P4's literal stream: run ids `[0,0,0,0]`, times `[0, 1, 2, 0.5]`. -/
def streamP4 : List Sample :=
  [rawS 0 0 "OCV", rawS 0 1 "OCV", rawS 0 2 "OCV", rawS 0 (1/2) "OCV"]

/-- A genuinely backward-jumping variant of P4's stream: run ids
`[0,0,0,0]`, times `[0, 1, 4, 0.5]`, so the fourth time really is smaller
than the third minus 2. -/
def streamP4' : List Sample :=
  [rawS 0 0 "OCV", rawS 0 1 "OCV", rawS 0 4 "OCV", rawS 0 (1/2) "OCV"]

/-- Restart stream followed by a distinct run id: ids `[0,0,2]`, times
`[5, 0.5, 6]` (the second sample triggers the backward-time restart
heuristic). -/
def streamRestartThenNew : List Sample :=
  [rawS 0 5 "OCV", rawS 0 (1/2) "OCV", rawS 2 6 "CV"]

/-- A raw, time-less sample with run id 0. -/
def sNoTime : Sample := rawNoTimeS 0 "PEIS"

/-- Detector/accumulator state of `run_and_save_characterization` after the
two samples `rawS 0 5`, `rawS 0 0.5` (the second triggered the restart
heuristic): `fltTime_prev = 5`, `fltTime_curr = 1/2`, last run id 0. -/
def staleSt : CharState := (charGo (charInit 0) [rawS 0 5 "OCV", rawS 0 (1/2) "OCV"]).1

/-- A restart stream with a single run id: ids `[0,0]`, times `[5, 0.5]`. -/
def streamRestartOnly : List Sample := [rawS 0 5 "OCV", rawS 0 (1/2) "OCV", rawS 1 0 "CP"]


/-! ### Helper lemmas: conservation of rows -/

/-- One deposition iteration conserves rows: the rows written this
iteration followed by the new accumulator contents equal the old
accumulator contents followed by the sample's row. -/
lemma depStep_join (st : DepState) (s : Sample) :
    (((depStep st s).2).map FileWrite.rows).flatten ++ (depStep st s).1.dfData
      = st.dfData ++ [rowOf s] := by
  unfold depStep
  dsimp only
  split_ifs <;> simp

/-- Row conservation for the whole deposition loop: the concatenation of all
written batches equals the initial accumulator followed by one row per
sample, in arrival order. -/
lemma depGo_join (xs : List Sample) : ∀ st : DepState,
    (((depGo st xs).2).map FileWrite.rows).flatten = st.dfData ++ xs.map rowOf := by
  induction xs with
  | nil => intro st; simp [depGo]
  | cons s rest ih =>
    intro st
    calc (((depGo st (s :: rest)).2).map FileWrite.rows).flatten
        = (((depStep st s).2).map FileWrite.rows).flatten
            ++ (((depGo (depStep st s).1 rest).2).map FileWrite.rows).flatten := by
          simp [depGo]
      _ = (((depStep st s).2).map FileWrite.rows).flatten
            ++ ((depStep st s).1.dfData ++ rest.map rowOf) := by rw [ih]
      _ = ((((depStep st s).2).map FileWrite.rows).flatten ++ (depStep st s).1.dfData)
            ++ rest.map rowOf := by rw [List.append_assoc]
      _ = (st.dfData ++ [rowOf s]) ++ rest.map rowOf := by rw [depStep_join]
      _ = st.dfData ++ (s :: rest).map rowOf := by simp

/-- One characterization iteration conserves rows. -/
lemma charStep_join (st : CharState) (s : Sample) :
    (((charStep st s).2).map FileWrite.rows).flatten ++ (charStep st s).1.dfData
      = st.dfData ++ [rowOf s] := by
  unfold charStep
  dsimp only
  split_ifs <;> simp_all

/-- Row conservation for the characterization streaming loop (before the
final flush): written batches plus the open accumulator account for every
arrived row exactly once, in order. -/
lemma charGo_join (xs : List Sample) : ∀ st : CharState,
    (((charGo st xs).2).map FileWrite.rows).flatten ++ (charGo st xs).1.dfData
      = st.dfData ++ xs.map rowOf := by
  induction xs with
  | nil => intro st; simp [charGo]
  | cons s rest ih =>
    intro st
    calc (((charGo st (s :: rest)).2).map FileWrite.rows).flatten
            ++ (charGo st (s :: rest)).1.dfData
        = (((charStep st s).2).map FileWrite.rows).flatten
            ++ ((((charGo (charStep st s).1 rest).2).map FileWrite.rows).flatten
                ++ (charGo (charStep st s).1 rest).1.dfData) := by
          simp [charGo]
      _ = (((charStep st s).2).map FileWrite.rows).flatten
            ++ ((charStep st s).1.dfData ++ rest.map rowOf) := by rw [ih]
      _ = ((((charStep st s).2).map FileWrite.rows).flatten ++ (charStep st s).1.dfData)
            ++ rest.map rowOf := by rw [List.append_assoc]
      _ = (st.dfData ++ [rowOf s]) ++ rest.map rowOf := by rw [charStep_join]
      _ = st.dfData ++ (s :: rest).map rowOf := by simp

/-- The final guarded flush writes exactly the rows still in the
accumulator (nothing when it is empty). -/
lemma charFinal_join (st : CharState) :
    (((charFinal st).2).map FileWrite.rows).flatten = st.dfData := by
  unfold charFinal
  split <;> simp_all


/-- Unfolding of one deposition loop iteration. -/
lemma depGo_cons (st : DepState) (s : Sample) (rest : List Sample) :
    depGo st (s :: rest)
      = ((depGo (depStep st s).1 rest).1,
         (depStep st s).2 ++ (depGo (depStep st s).1 rest).2) := rfl

/-- Unfolding of one characterization loop iteration. -/
lemma charGo_cons (st : CharState) (s : Sample) (rest : List Sample) :
    charGo st (s :: rest)
      = ((charGo (charStep st s).1 rest).1,
         (charStep st s).2 ++ (charGo (charStep st s).1 rest).2) := rfl

/-- Unfolding of one `run_techniques` loop iteration. -/
lemma bdGo_cons (st : BdState) (s : Sample) (rest : List Sample) :
    bdGo st (s :: rest)
      = ((bdGo (bdStep st s).1 rest).1,
         (bdStep st s).2 ++ (bdGo (bdStep st s).1 rest).2) := rfl

/-! ### Helper lemmas: the deposition numbering offset is persistent -/

/-- A single iteration never decreases `intID_tech_add`. -/
lemma depStep_add_le (st : DepState) (s : Sample) :
    st.intID_tech_add ≤ (depStep st s).1.intID_tech_add := by
  unfold depStep
  dsimp only
  split_ifs <;> simp

/-- The whole remaining loop never decreases `intID_tech_add`: once bumped,
the disambiguation offset stays bumped. -/
lemma depGo_add_mono (xs : List Sample) : ∀ st : DepState,
    st.intID_tech_add ≤ ((depGo st xs).1).intID_tech_add := by
  induction xs with
  | nil => intro st; simp [depGo]
  | cons s rest ih =>
    intro st
    calc st.intID_tech_add ≤ (depStep st s).1.intID_tech_add := depStep_add_le st s
      _ ≤ ((depGo (depStep st s).1 rest).1).intID_tech_add := ih (depStep st s).1
      _ = ((depGo st (s :: rest)).1).intID_tech_add := by rw [depGo_cons]

/-! ### Helper lemma: `run_techniques` batches are the adjacent-id runs -/

/-- `BiologicDevice.run_techniques` refines `bdRunsSpec`: starting from any
accumulated run `acc` and tracked id `tid`, the batches it saves are exactly
the adjacent-equal-`tech_index` runs of the stream (each mapped to its rows),
and `tech_id_add` keeps whatever value it had. -/
lemma bdGo_runs (xs : List Sample) : ∀ (tid a : Nat) (acc : List Sample) (nm : String) (fs : Bool),
    ((bdGo ⟨acc.map rowOf, tid, a, nm, fs⟩ xs).2).map FileWrite.rows
        = (bdRunsSpec tid acc xs).map (fun run => run.map rowOf)
      ∧ ((bdGo ⟨acc.map rowOf, tid, a, nm, fs⟩ xs).1).tech_id_add = a := by
  induction xs with
  | nil =>
    intro tid a acc nm fs
    refine ⟨?_, by simp [bdGo]⟩
    by_cases h : acc = []
    · subst h; simp [bdGo, bdRunsSpec]
    · have h' : acc.map rowOf ≠ [] := by simpa using h
      simp [bdGo, bdRunsSpec, h, h']
  | cons s rest ih =>
    intro tid a acc nm fs
    by_cases hid : s.tech_index = tid
    · have hbne : (s.tech_index != tid) = false := by simp [hid]
      have hstep : bdStep ⟨acc.map rowOf, tid, a, nm, fs⟩ s
          = (⟨(acc ++ [s]).map rowOf, tid, a,
              (if fs then s.typeName else nm), false⟩, []) := by
        unfold bdStep
        simp [hbne]
      obtain ⟨ih1, ih2⟩ := ih tid a (acc ++ [s]) (if fs then s.typeName else nm) false
      refine ⟨?_, ?_⟩
      · rw [bdGo_cons, hstep]
        simpa [bdRunsSpec, hid] using ih1
      · rw [bdGo_cons, hstep]
        exact ih2
    · have hbne : (s.tech_index != tid) = true := by simp [hid]
      obtain ⟨ih1, ih2⟩ := ih s.tech_index a [s] s.typeName false
      simp only [List.map_cons, List.map_nil] at ih1 ih2
      by_cases hacc : acc = []
      · subst hacc
        have hstep : bdStep ⟨([] : List Sample).map rowOf, tid, a, nm, fs⟩ s
            = (⟨[rowOf s], s.tech_index, a, s.typeName, false⟩, []) := by
          unfold bdStep
          simp [hbne]
        refine ⟨?_, ?_⟩
        · rw [bdGo_cons, hstep]
          simpa [bdRunsSpec, hid] using ih1
        · rw [bdGo_cons, hstep]
          exact ih2
      · have hacc' : acc.map rowOf ≠ [] := by simpa using hacc
        have hstep : bdStep ⟨acc.map rowOf, tid, a, nm, fs⟩ s
            = (⟨[rowOf s], s.tech_index, a, s.typeName, false⟩,
               [⟨tid + a, (if fs then s.typeName else nm), acc.map rowOf⟩]) := by
          unfold bdStep
          simp [hbne, hacc']
        refine ⟨?_, ?_⟩
        · rw [bdGo_cons, hstep]
          simp only [List.map_append, List.map_cons, List.map_nil]
          rw [ih1]
          simp [bdRunsSpec, hid, hacc]
        · rw [bdGo_cons, hstep]
          exact ih2


/-! ### Helper lemmas: file-store semantics of `DataStorage` -/

/-- Reading after an overwrite: the written table at the written path,
everything else untouched. -/
lemma storeGet_storePut (p q : String × Nat × String) (v : List Row) :
    ∀ m : Store, storeGet (storePut m p v) q = if q = p then some v else storeGet m q := by
  intro m
  induction m with
  | nil =>
    by_cases h : q = p
    · subst h; simp [storePut, storeGet]
    · have h' : ¬ p = q := fun hh => h hh.symm
      simp [storePut, storeGet, h, h']
  | cons kv rest ih =>
    obtain ⟨k, w⟩ := kv
    by_cases hk : k = p
    · subst hk
      by_cases h : q = k
      · subst h; simp [storePut, storeGet]
      · have h' : ¬ k = q := fun hh => h hh.symm
        simp [storePut, storeGet, h, h']
    · by_cases h : k = q
      · have hq : ¬ q = p := fun hh => hk (h.trans hh)
        simp [storePut, storeGet, hk, h, hq]
      · simp [storePut, storeGet, hk, h, ih]

/-- `dsGo` splits over stream concatenation. -/
lemma dsGo_append (expId : String) (xs ys : List Sample) :
    ∀ m log, dsGo expId m log (xs ++ ys)
      = dsGo expId (dsGo expId m log xs).1 (dsGo expId m log xs).2 ys := by
  induction xs with
  | nil => intro m log; simp [dsGo]
  | cons s rest ih =>
    intro m log
    simp only [List.cons_append, dsGo]
    exact ih _ _

/-- The chronological write log of `DataStorage`: one single-row write per
incoming sample, at that sample's path, in arrival order. -/
lemma dsGo_log (expId : String) (xs : List Sample) :
    ∀ m log, (dsGo expId m log xs).2
      = log ++ xs.map (fun s => (dsPath expId s, [dsRow s])) := by
  induction xs with
  | nil => intro m log; simp [dsGo]
  | cons s rest ih =>
    intro m log
    simp [dsGo, ih]

/-! ### Helper lemmas: orchestration -/

/-- Exhausting `k` failing connect attempts: each failure counts one
attempt and one 50-second sleep, no file is written, and the loop ends by
returning the current `intGlobalTechID`. -/
lemma orchGo_replicate_fail (k : Nat) :
    ∀ (maxA : Nat) (st : CharState) (ws : List FileWrite) (c : Nat) (sl : List Nat) (a : Nat),
      a + k = maxA →
      orchGo maxA (List.replicate k ConnectOutcome.fail) st ws c sl a
        = ⟨c + k, sl ++ List.replicate k 50, ws, some st.intGlobalTechID⟩ := by
  induction k with
  | zero =>
    intro maxA st ws c sl a h
    simp [orchGo]
  | succ k ih =>
    intro maxA st ws c sl a h
    have ha : a < maxA := by omega
    rw [List.replicate_succ]
    simp only [orchGo, if_pos ha]
    rw [ih maxA st ws (c + 1) (sl ++ [50]) (a + 1) (by omega)]
    simp [List.replicate_succ, List.append_assoc]
    omega

/-- `BiologicDevice.connect` raises `ConnectionError` when every attempt
fails. -/
lemma bioConnect_replicate (n : Nat) :
    bioConnect n (List.replicate n false)
      = ConnectResult.connectionError
          "Failed to connect to Biologic after maximum attempts" := by
  induction n with
  | zero => simp [bioConnect]
  | succ n ih => simpa [bioConnect, List.replicate_succ] using ih


/-! ### Claim theorems -/

/-- C1: for every finite input sample stream processed to completion
without a mid-stream exception, the concatenation of the rows of all
flushed batches equals the input samples' rows in arrival order — so the
multiset of rows over all flushed batches equals the multiset of the input
samples' field maps (no sample dropped or duplicated), and within each
flushed batch the row order is the arrival order of its constituent
samples (each batch is a contiguous, order-preserving slice of the input).
Proved for both cited implementations: the module-level deposition loop and
`run_and_save_characterization`. -/
theorem pipelines_preserve_rows (stream : List Sample) (gid : Nat) :
    ((depPipeline stream).map FileWrite.rows).flatten = stream.map rowOf
    ∧ ((charPipeline gid stream).map FileWrite.rows).flatten = stream.map rowOf := by
  constructor
  · rw [depPipeline, depGo_join]
    simp [depInit]
  · rw [charPipeline]
    rw [List.map_append, List.flatten_append, charFinal_join]
    have h := charGo_join stream (charInit gid)
    simpa [charInit] using h

/-- C2 counterexample: on run ids `[0,0,2]` with times `[5, 0.5, 6]`
(`streamRestartThenNew`) the second sample triggers the backward-time
restart heuristic in both implementations, but only the deposition loop
adds a persistent offset to the numbering of future flushed batches
(numbers `[0, 1, 3]`: the last batch, of run id 2, is numbered 2 + 1);
`run_and_save_characterization` numbers its batches `[0, 1, 2]` — its
`boolAdd1ToTechIndex` flag is cleared without incrementing any offset, so
no offset is added to the numbering of future flushed batches there. -/
theorem char_restart_offset_missing_cex :
    (depPipeline streamRestartThenNew).map FileWrite.num = [0, 1, 3]
    ∧ (charPipeline 0 streamRestartThenNew).map FileWrite.num = [0, 1, 2] := by
  constructor <;>
    iterate 8
    (try simp [depPipeline, charPipeline, depGo, charGo, depStep, charStep, depInit,
      charInit, charFinal, charNewFlag, charNewFlag1, charAdd1Flag, timeShift,
      timeOf, hasProcessIndex, hasKey, rowOf, staleSt, streamRestartThenNew,
      streamP4, streamP4', streamP3, sNoTime, rawS, rawNoTimeS, List.lookup]
     try norm_num)

/-- C2 amended: the claim holds for the module-level deposition loop. For
a sample with the same run id as `intID_tech`, not a process sample, with a
`time` field whose value `t` satisfies `fltTime_curr - 2 > t` (that is,
`previousTimeValue - 2 > currentTimeValue` after the update), the iteration
flushes the open batch (numbered with the run id plus the old offset),
increments `intID_tech_add` by 1, and the offset never decreases again, so
all future flushed batch numbers (`intID_tech + intID_tech_add`) include
the bump.  In `run_and_save_characterization`, by contrast, the restart
only flushes: no offset exists there (see the counterexample). -/
theorem dep_restart_bumps_offset (st : DepState) (s : Sample) (t : ℚ)
    (hp : hasProcessIndex s = false) (ht : timeOf s = some t)
    (hid : s.tech_index = st.intID_tech) (hjump : st.fltTime_curr - 2 > t) :
    (depStep st s).2
        = [⟨st.intID_tech + st.intID_tech_add,
            if st.boolFirstTechnique then s.typeName else st.strCurrentTechnique,
            st.dfData⟩]
    ∧ (depStep st s).1.intID_tech_add = st.intID_tech_add + 1
    ∧ ∀ rest : List Sample,
        st.intID_tech_add + 1 ≤ ((depGo (depStep st s).1 rest).1).intID_tech_add := by
  have htp : timeShift st.fltTime_prev st.fltTime_curr s = (st.fltTime_curr, t) := by
    simp [timeShift, hp, ht]
  have h1 : depStep st s
      = ({ dfData := [rowOf s], intID_tech := s.tech_index,
           intID_tech_add := st.intID_tech_add + 1,
           strCurrentTechnique := s.typeName, boolFirstTechnique := false,
           fltTime_prev := st.fltTime_curr, fltTime_curr := t },
         [⟨st.intID_tech + st.intID_tech_add,
           if st.boolFirstTechnique then s.typeName else st.strCurrentTechnique,
           st.dfData⟩]) := by
    unfold depStep
    simp [hp, htp, hid, hjump]
  refine ⟨by rw [h1], by rw [h1], ?_⟩
  intro rest
  calc st.intID_tech_add + 1 = (depStep st s).1.intID_tech_add := by rw [h1]
    _ ≤ ((depGo (depStep st s).1 rest).1).intID_tech_add :=
        depGo_add_mono rest (depStep st s).1

/-- C2 witness: the amended theorem applied at the concrete state reached
after a sample with time 5 (run id 0) when the next sample has time 0.5 and
the same run id. -/
theorem dep_restart_bumps_offset_witness :
    (hasProcessIndex (rawS 0 (1/2) "OCV") = false
      ∧ timeOf (rawS 0 (1/2) "OCV") = some (1/2)
      ∧ (rawS 0 (1/2) "OCV").tech_index
          = (⟨[[("time", 5), ("Ewe", 1)]], 0, 0, "OCV", false, 0, 5⟩ : DepState).intID_tech
      ∧ (⟨[[("time", 5), ("Ewe", 1)]], 0, 0, "OCV", false, 0, 5⟩ : DepState).fltTime_curr - 2
          > (1/2 : ℚ))
    ∧ (depStep (⟨[[("time", 5), ("Ewe", 1)]], 0, 0, "OCV", false, 0, 5⟩ : DepState)
          (rawS 0 (1/2) "OCV")).1.intID_tech_add = 0 + 1 :=
  ⟨⟨rfl, rfl, rfl, by show (5 : ℚ) - 2 > (1/2 : ℚ); norm_num⟩,
   (dep_restart_bumps_offset
      (⟨[[("time", 5), ("Ewe", 1)]], 0, 0, "OCV", false, 0, 5⟩ : DepState)
      (rawS 0 (1/2) "OCV") (1/2) rfl rfl rfl
      (by show (5 : ℚ) - 2 > (1/2 : ℚ); norm_num)).2.1⟩

/-- C3 counterexample: `sNoTime` is a raw sample without a `time` key whose
run id 0 equals the detector's recorded last run id in the reachable state
`staleSt` (produced by the stream with times `[5, 0.5]`), yet the
classifier's verdict for it is NEW_BATCH, not SAME_BATCH: the restart check
still runs on the stale stored time values `5` and `0.5`. -/
theorem timeless_sample_new_batch_cex :
    hasProcessIndex sNoTime = false
    ∧ timeOf sNoTime = none
    ∧ staleSt.intID_tech = some sNoTime.tech_index
    ∧ charNewFlag staleSt sNoTime = true := by
  refine ⟨rfl, rfl, ?_, ?_⟩ <;>
    iterate 8
    (try simp [depPipeline, charPipeline, depGo, charGo, depStep, charStep, depInit,
      charInit, charFinal, charNewFlag, charNewFlag1, charAdd1Flag, timeShift,
      timeOf, hasProcessIndex, hasKey, rowOf, staleSt, streamRestartThenNew,
      streamP4, streamP4', streamP3, sNoTime, rawS, rawNoTimeS, List.lookup]
     try norm_num)

/-- C3 amended: for a same-run-id raw sample without a `time` key, the
time-value update of rule 3 is indeed skipped (`fltTime_prev` and
`fltTime_curr` are unchanged by the step), but the restart check is still
evaluated against the stale stored values: the verdict is SAME_BATCH iff
`fltTime_prev - 2 > fltTime_curr` fails on the stale values, so boundary
detection for time-less techniques does not rely solely on run-id
changes. -/
theorem timeless_sample_stale_check (st : CharState) (s : Sample)
    (hp : hasProcessIndex s = false) (ht : timeOf s = none)
    (hid : st.intID_tech = some s.tech_index) :
    charNewFlag st s = decide (st.fltTime_prev - 2 > st.fltTime_curr)
    ∧ (charStep st s).1.fltTime_prev = st.fltTime_prev
    ∧ (charStep st s).1.fltTime_curr = st.fltTime_curr := by
  have htp : timeShift st.fltTime_prev st.fltTime_curr s
      = (st.fltTime_prev, st.fltTime_curr) := by
    simp [timeShift, hp, ht]
  have hflag : charNewFlag st s = decide (st.fltTime_prev - 2 > st.fltTime_curr) := by
    unfold charNewFlag charNewFlag1 charAdd1Flag
    rw [hid]
    simp [hp, htp]
  refine ⟨hflag, ?_, ?_⟩ <;>
    · unfold charStep
      dsimp only
      split <;> simp [htp]

/-- C3 witness: the amended theorem applied at a concrete stale state. -/
theorem timeless_sample_stale_check_witness :
    (hasProcessIndex sNoTime = false
      ∧ timeOf sNoTime = none
      ∧ (⟨[[("time", 5), ("Ewe", 1)]], some 0, 1, "OCV", false, 5, 1/2⟩ : CharState).intID_tech
          = some sNoTime.tech_index)
    ∧ charNewFlag (⟨[[("time", 5), ("Ewe", 1)]], some 0, 1, "OCV", false, 5, 1/2⟩ : CharState)
          sNoTime
        = decide ((5 : ℚ) - 2 > 1/2) :=
  ⟨⟨rfl, rfl, rfl⟩,
   (timeless_sample_stale_check
      (⟨[[("time", 5), ("Ewe", 1)]], some 0, 1, "OCV", false, 5, 1/2⟩ : CharState)
      sNoTime rfl rfl rfl).1⟩

/-- C4 counterexample: on run ids `[0,0,0,0]` with the claim's literal time
sequence `[0, 1, 2, 0.5]` (`streamP4`) the restart condition
`fltTime_prev - 2 > fltTime_curr` at the fourth sample is `2 - 2 > 0.5`,
which is false (0.5 is not less than the third time minus 2), so both
pipelines produce exactly one flushed batch of size 4 — not two batches of
sizes [3, 1]. -/
theorem p4_literal_times_single_batch_cex :
    (depPipeline streamP4).map (fun w => w.rows.length) = [4]
    ∧ (charPipeline 0 streamP4).map (fun w => w.rows.length) = [4]
    ∧ ([4] : List Nat) ≠ [3, 1] := by
  refine ⟨?_, ?_, by decide⟩ <;>
    iterate 8
    (try simp [depPipeline, charPipeline, depGo, charGo, depStep, charStep, depInit,
      charInit, charFinal, charNewFlag, charNewFlag1, charAdd1Flag, timeShift,
      timeOf, hasProcessIndex, hasKey, rowOf, staleSt, streamRestartThenNew,
      streamP4, streamP4', streamP3, sNoTime, rawS, rawNoTimeS, List.lookup]
     try norm_num)

/-- C4 amended: with a time sequence whose fourth value really is smaller
than the third minus 2 — `[0, 1, 4, 0.5]` (`streamP4'`) — the stream of
four samples with run id 0 splits into 2 flushed batches of sizes [3, 1],
and the second batch is numbered 1 = 0 + 1: one more than the naive
run-id-based number 0 (in the deposition loop via the bumped
`intID_tech_add` offset; in `run_and_save_characterization` via its flush
counter). -/
theorem p4_backward_jump_two_batches :
    (depPipeline streamP4').map (fun w => (w.num, w.rows.length)) = [(0, 3), (1, 1)]
    ∧ (charPipeline 0 streamP4').map (fun w => (w.num, w.rows.length)) = [(0, 3), (1, 1)] := by
  constructor <;>
    iterate 8
    (try simp [depPipeline, charPipeline, depGo, charGo, depStep, charStep, depInit,
      charInit, charFinal, charNewFlag, charNewFlag1, charAdd1Flag, timeShift,
      timeOf, hasProcessIndex, hasKey, rowOf, staleSt, streamRestartThenNew,
      streamP4, streamP4', streamP3, sNoTime, rawS, rawNoTimeS, List.lookup]
     try norm_num)

/-- C5: the stream of six samples with run ids `[0,0,0,1,1,2]` and strictly
increasing times (`streamP3`) produces exactly 3 flushed batches of sizes
[3, 2, 1] in both pipelines (numbered 0, 1, 2). -/
theorem p3_run_id_three_batches :
    (charPipeline 0 streamP3).map (fun w => (w.num, w.rows.length))
        = [(0, 3), (1, 2), (2, 1)]
    ∧ (depPipeline streamP3).map (fun w => (w.num, w.rows.length))
        = [(0, 3), (1, 2), (2, 1)] := by
  constructor <;>
    iterate 8
    (try simp [depPipeline, charPipeline, depGo, charGo, depStep, charStep, depInit,
      charInit, charFinal, charNewFlag, charNewFlag1, charAdd1Flag, timeShift,
      timeOf, hasProcessIndex, hasKey, rowOf, staleSt, streamRestartThenNew,
      streamP4, streamP4', streamP3, sNoTime, rawS, rawNoTimeS, List.lookup]
     try norm_num)

/-- C6 counterexample: at end of stream the module-level deposition loop
runs `dfData.to_csv` unconditionally: on the empty stream (empty
accumulator) it still writes a file — an empty table numbered 0 — so the
final flush there is not a no-op on an empty accumulator. -/
theorem dep_final_flush_empty_writes_cex :
    depPipeline [] = [⟨0, "", []⟩] := by
  rfl

/-- C6 amended: the guarded final flush of `run_and_save_characterization`
is a no-op on an empty accumulator: no file is written and the state (in
particular `intGlobalTechID`, so no global sequence id) is unchanged.  The
module-level deposition loop instead writes the dataframe unconditionally
at end of stream, producing an empty file even when the accumulator is
empty (see the counterexample). -/
theorem char_final_flush_empty_noop (st : CharState) (h : st.dfData = []) :
    charFinal st = (st, []) := by
  simp [charFinal, h]

/-- C6 witness: the amended theorem applied to the empty initial state. -/
theorem char_final_flush_empty_noop_witness :
    (charInit 7).dfData = [] ∧ charFinal (charInit 7) = (charInit 7, []) :=
  ⟨rfl, char_final_flush_empty_noop (charInit 7) rfl⟩


/-- C7 counterexample: first attempt crashes after one sample, second
attempt streams the full run `[rawS 0 0, rawS 0 1]`.  The retried stream
does NOT begin with an empty accumulator and reset detector state: the
partial row of the crashed attempt is retained (and the retained
`intID_tech = some 0` suppresses the boundary at the retry's first sample),
so the single flushed batch holds the time-0 row twice — `[r0, r0, r1]`
instead of the `[r0, r1]` the claim implies. -/
theorem char_retry_duplicates_partial_cex :
    charOrchestrate 3 0
        [ConnectOutcome.stream [rawS 0 0 "OCV"] true,
         ConnectOutcome.stream [rawS 0 0 "OCV", rawS 0 1 "OCV"] false]
      = ⟨2, [50],
         [⟨0, "OCV", [[("time", 0), ("Ewe", 1)], [("time", 0), ("Ewe", 1)],
                      [("time", 1), ("Ewe", 1)]]⟩], some 1⟩
    ∧ ([[("time", 0), ("Ewe", 1)], [("time", 0), ("Ewe", 1)], [("time", 1), ("Ewe", 1)]] :
          List Row)
        ≠ [[("time", 0), ("Ewe", 1)], [("time", 1), ("Ewe", 1)]] := by
  refine ⟨?_, fun h => by simpa using congrArg List.length h⟩
  iterate 8
    (try simp [charOrchestrate, orchGo, charGo, charStep, charFinal, charInit,
      charNewFlag, charNewFlag1, charAdd1Flag, timeShift, timeOf,
      hasProcessIndex, hasKey, rowOf, rawS, List.lookup]
     try norm_num)

/-- C7 amended: if an unhandled exception interrupts the first streaming
attempt, the run is retried from the connecting phase and every batch
already handed to the sink remains in the output; but the in-progress
partial rows are NOT discarded — accumulator and detector state persist
across the retry — so the total persisted rows are the crashed attempt's
rows followed by the full retried stream's rows (the partial rows are
merged, and typically duplicated, into the retried run's first batch). -/
theorem char_retry_keeps_partial_rows (gid : Nat) (xs ys : List Sample) :
    (((charOrchestrate 3 gid
          [ConnectOutcome.stream xs true, ConnectOutcome.stream ys false]).writes).map
        FileWrite.rows).flatten
      = xs.map rowOf ++ ys.map rowOf := by
  have hw : (charOrchestrate 3 gid
        [ConnectOutcome.stream xs true, ConnectOutcome.stream ys false]).writes
      = (charGo (charInit gid) xs).2 ++ (charGo (charGo (charInit gid) xs).1 ys).2
        ++ (charFinal (charGo (charGo (charInit gid) xs).1 ys).1).2 := by
    simp [charOrchestrate, orchGo]
  rw [hw]
  simp only [List.map_append, List.flatten_append, charFinal_join]
  have hx := charGo_join xs (charInit gid)
  have hy := charGo_join ys (charGo (charInit gid) xs).1
  rw [List.append_assoc, hy, ← List.append_assoc, hx]
  simp [charInit]

/-- C8 counterexample: with a connection factory that raises on every
attempt and the default `intMaxAttempts = 3`, `run_and_save_characterization`
makes exactly 3 connect attempts and never calls the sink, but it sleeps
the 50-second backoff after EVERY failed attempt (three sleeps, including
one after the final attempt, not only between attempts), and then it
returns `intGlobalTechID` normally (`some 0`): the failure is swallowed by
the `except` clause and never propagated to the caller, so no `FAILED`
outcome reaches the caller. -/
theorem char_orch_all_fail_returns_cex :
    charOrchestrate 3 0 [ConnectOutcome.fail, ConnectOutcome.fail, ConnectOutcome.fail]
      = ⟨3, [50, 50, 50], [], some 0⟩ := by
  rfl

/-- C8 amended: with an always-raising connection factory the orchestrator
makes exactly `maxAttempts` connect attempts, sleeps the 50-second backoff
after each failed attempt (including the last), never calls the
persistence sink, and then returns normally to its caller without
propagating the failure.  The lower-level `BiologicDevice.connect`, in
contrast, does raise `ConnectionError` after exhausting its attempts. -/
theorem char_orch_all_fail_bounded (maxA gid : Nat) :
    charOrchestrate maxA gid (List.replicate maxA ConnectOutcome.fail)
      = ⟨maxA, List.replicate maxA 50, [], some gid⟩
    ∧ bioConnect maxA (List.replicate maxA false)
      = ConnectResult.connectionError
          "Failed to connect to Biologic after maximum attempts" := by
  refine ⟨?_, bioConnect_replicate maxA⟩
  have h := orchGo_replicate_fail maxA maxA (charInit gid) [] 0 [] 0 (by omega)
  simpa [charOrchestrate, charInit] using h

set_option maxRecDepth 8000 in
/-- C9: `BiologicDevice.run_techniques` flushes the accumulated table
exactly when an incoming sample's `tech_index` differs from the tracked
`tech_id` plus one guarded final flush: its saved batches are precisely the
adjacent-equal-run-id runs of the stream (`bdRunsSpec`, which never
inspects a time field — no backward-time restart detection exists in this
implementation), and `tech_id_add` remains 0 for the whole run.
Consequently a restarted technique reusing its run id (`streamRestartOnly`,
ids `[0,0,1]` with the backward time jump 5 → 0.5) has both rows saved in
the single batch for id 0. -/
theorem bd_run_techniques_runs_by_id (stream : List Sample) :
    (bdPipeline stream).map FileWrite.rows
        = (bdRunsSpec 0 [] stream).map (fun run => run.map rowOf)
    ∧ ((bdGo bdInit stream).1).tech_id_add = 0
    ∧ (bdPipeline streamRestartOnly).map (fun w => (w.num, w.rows.length))
        = [(0, 2), (1, 1)] := by
  obtain ⟨h1, h2⟩ := bdGo_runs stream 0 0 [] "" true
  simp only [List.map_nil] at h1 h2
  refine ⟨?_, ?_, ?_⟩
  · simpa [bdPipeline, bdInit] using h1
  · simpa [bdInit] using h2
  · simp [bdPipeline, bdGo, bdGo_cons, bdStep, bdInit, streamRestartOnly, rawS,
      rowOf, hasProcessIndex, hasKey, List.lookup]

/-- C10: in the websocket persistence path, `DataStorage.handle_data`
persists each incoming sample immediately as a one-row table at the path
determined only by the experiment id, the sample's `tech_index` and the
technique name (the write log is exactly one single-row write per sample,
in arrival order), overwriting any previous file at that path; hence after
the whole stream the file stored at any path holds exactly the last sample
written there — not the accumulated batch. -/
theorem ds_storage_last_write_wins (expId : String) (stream : List Sample)
    (p : String × Nat × String) :
    storeGet (dsRun expId stream).1 p
        = Option.map (fun s => [dsRow s])
            ((stream.filter (fun s => decide (dsPath expId s = p))).getLast?)
    ∧ (dsRun expId stream).2 = stream.map (fun s => (dsPath expId s, [dsRow s])) := by
  refine ⟨?_, by simpa [dsRun] using dsGo_log expId stream [] []⟩
  induction stream using List.reverseRecOn with
  | nil => simp [dsRun, dsGo, storeGet]
  | append_singleton xs s ih =>
    have hsplit : dsRun expId (xs ++ [s])
        = (storePut (dsRun expId xs).1 (dsPath expId s) [dsRow s],
           (dsRun expId xs).2 ++ [(dsPath expId s, [dsRow s])]) := by
      rw [dsRun, dsGo_append]
      rfl
    rw [hsplit]
    dsimp only
    rw [storeGet_storePut, List.filter_append]
    by_cases h : dsPath expId s = p
    · have hd : decide (dsPath expId s = p) = true := by simp [h]
      rw [if_pos h.symm]
      simp [List.filter_cons, hd, List.getLast?_concat]
    · have hp : ¬ p = dsPath expId s := fun hh => h hh.symm
      have hd : decide (dsPath expId s = p) = false := by simp [h]
      rw [if_neg hp]
      simpa [List.filter_cons, hd] using ih

end SDL
